import Mathlib

/-!
Shallow embedding of the Move module `rock_paper_scissors::game`
(a two-player wagered rock-paper-scissors dapp with commit-reveal and
escrowed deposits), together with proofs about its specification.

Modelling conventions:
* Move `u8`/`u64` values and account addresses are `Nat` (Move aborts on
  overflow instead of wrapping, so no modular arithmetic is needed here).
* `vector<u8>` and `String` values are `List Nat` of byte values.
* `Coin<AptosCoin>` amounts held inside a `Game` are the `Nat` value of the
  coin; account `CoinStore` balances are a function `Nat -> Nat`.
* A transaction either aborts (modelled as `Except.error code`, leaving the
  pre-state untouched) or commits (`Except.ok` with the whole new world).
* `hash::sha3_256` is kept abstract: every operation that hashes takes an
  explicit hash function `h : Bytes -> Bytes` as its first argument.
* `option::borrow` on an empty option aborts with the std library code
  `EOPTION_NOT_SET`; that abort path is modelled explicitly.
-/

abbrev Bytes : Type := List Nat

abbrev HashFn : Type := Bytes → Bytes

deriving instance DecidableEq for Except

namespace RPS

/-- Abort code: game not found. -/
def E_GAME_NOT_FOUND : Nat := 1

/-- Abort code: player already in game. -/
def E_PLAYER_ALREADY_IN_GAME : Nat := 2

/-- Abort code: game is full. -/
def E_GAME_FULL : Nat := 3

/-- Abort code: invalid move. -/
def E_INVALID_MOVE : Nat := 4

/-- Abort code: game not in correct phase. -/
def E_WRONG_PHASE : Nat := 6

/-- Abort code: move already committed. -/
def E_MOVE_ALREADY_COMMITTED : Nat := 7

/-- Abort code: move not committed yet. -/
def E_MOVE_NOT_COMMITTED : Nat := 8

/-- Abort code: invalid move reveal. -/
def E_INVALID_MOVE_REVEAL : Nat := 9

/-- Abort code: not a player in this game. -/
def E_NOT_PLAYER : Nat := 10

/-- Abort code: insufficient funds for bet. -/
def E_INSUFFICIENT_FUNDS : Nat := 11

/-- Abort code: game id already exists. -/
def E_GAME_ID_EXISTS : Nat := 12

/-- Abort code: invalid bet amount. -/
def E_INVALID_BET_AMOUNT : Nat := 13

/-- Abort code: game not finished. -/
def E_GAME_NOT_FINISHED : Nat := 14

/-- Abort code: already withdrawn. -/
def E_ALREADY_WITHDRAWN : Nat := 15

/-- Abort code: not the creator of the game. -/
def E_NOT_CREATOR : Nat := 16

/-- Abort code: game already started (cannot cancel). -/
def E_GAME_ALREADY_STARTED : Nat := 17

/-- Abort code of `std::option::borrow` on an empty option
(`EOPTION_NOT_SET = 0x40001` in the Move standard library). -/
def EOPTION_NOT_SET : Nat := 262145

/-- Move constant `ROCK`. -/
def ROCK : Nat := 0

/-- Move constant `PAPER`. -/
def PAPER : Nat := 1

/-- Move constant `SCISSORS`. -/
def SCISSORS : Nat := 2

/-- Move constant `PHASE_WAITING`. -/
def PHASE_WAITING : Nat := 0

/-- Move constant `PHASE_COMMIT`. -/
def PHASE_COMMIT : Nat := 1

/-- Move constant `PHASE_REVEAL`. -/
def PHASE_REVEAL : Nat := 2

/-- Move constant `PHASE_FINISHED`. -/
def PHASE_FINISHED : Nat := 3

/-- Move constant `RESULT_PENDING`. -/
def RESULT_PENDING : Nat := 0

/-- Move constant `RESULT_PLAYER1_WINS`. -/
def RESULT_PLAYER1_WINS : Nat := 1

/-- Move constant `RESULT_PLAYER2_WINS`. -/
def RESULT_PLAYER2_WINS : Nat := 2

/-- Move constant `RESULT_DRAW`. -/
def RESULT_DRAW : Nat := 3

/-- Move constant `GAME_TYPE_PUBLIC`. -/
def GAME_TYPE_PUBLIC : Nat := 0

/-- Move constant `GAME_TYPE_PRIVATE`. -/
def GAME_TYPE_PRIVATE : Nat := 1

/-- The `Game` resource of the Move module (Coin deposits stored by value). -/
structure Game where
  creator : Nat
  player1 : Option Nat
  player2 : Option Nat
  phase : Nat
  player1_move_hash : Option Bytes
  player2_move_hash : Option Bytes
  player1_move : Option Nat
  player2_move : Option Nat
  result : Nat
  winner : Option Nat
  created_at : Nat
  game_type : Nat
  short_id : Bytes
  bet_amount : Nat
  player1_deposit : Nat
  player2_deposit : Nat
  prize_withdrawn : Bool
  deriving DecidableEq, Repr, Inhabited

/-- The `GameRegistry` resource: the `Table<String, address>` is an
association list from id bytes to the game object address. -/
structure GameRegistry where
  id_to_address : List (Bytes × Nat)
  next_counter : Nat
  public_games : List Bytes
  deriving DecidableEq, Repr

/-- The events emitted by the module, one constructor per `#[event]` struct. -/
inductive Event where
  | GameCreated (game_id : Bytes) (game_address creator game_type bet_amount : Nat)
  | PlayerJoined (game_id : Bytes) (player deposit_amount : Nat)
  | MoveCommitted (game_id : Bytes) (player : Nat)
  | MoveRevealed (game_id : Bytes) (player player_move : Nat)
  | GameFinished (game_id : Bytes) (winner : Option Nat)
      (result player1_move player2_move prize_amount : Nat)
  | PrizeWithdrawn (game_id : Bytes) (winner amount : Nat)
  | GameCancelled (game_id : Bytes) (creator refund_amount : Nat)
  deriving DecidableEq, Repr

/-- Global on-chain state relevant to the module: the (single) registry,
the `Game` resources indexed by object address, account coin balances, and
the stream of emitted events. -/
structure World where
  registry : Option GameRegistry
  games : List (Nat × Game)
  balances : Nat → Nat
  events : List Event

/-- First-match association-list lookup (models `table::borrow` /
`borrow_global` addressing). -/
def lookupA {α β : Type} [DecidableEq α] : List (α × β) → α → Option β
  | [], _ => none
  | p :: rest, k => if p.1 = k then some p.2 else lookupA rest k

/-- Replace the value bound to a key (models mutation through
`borrow_global_mut`). -/
def updateA {α β : Type} [DecidableEq α] : List (α × β) → α → β → List (α × β)
  | [], _, _ => []
  | p :: rest, k, v => if p.1 = k then (k, v) :: updateA rest k v else p :: updateA rest k v

/-- Remove every binding of a key (models `table::remove`). -/
def eraseA {α β : Type} [DecidableEq α] : List (α × β) → α → List (α × β)
  | [], _ => []
  | p :: rest, k => if p.1 = k then eraseA rest k else p :: eraseA rest k

/-- Pointwise update of a balance function. -/
def updateBal (f : Nat → Nat) (a v : Nat) : Nat → Nat :=
  fun x => if x = a then v else f x

/-- Remove the first occurrence of an element of a list (models
`vector::index_of` followed by `vector::remove`). -/
def removeFirst : List Bytes → Bytes → List Bytes
  | [], _ => []
  | x :: rest, y => if x = y then rest else x :: removeFirst rest y

/-- BCS serialization of a `u8`: a single byte. -/
def bcsU8 (n : Nat) : Bytes := [n % 256]

/-- BCS serialization of a `u64`: 8 bytes, little-endian. -/
def bcsU64 (n : Nat) : Bytes := (List.range 8).map (fun i => n / 256 ^ i % 256)

/-- BCS serialization of an `address`: its 32 raw bytes (big-endian). -/
def bcsAddress (a : Nat) : Bytes := (List.range 32).map (fun i => a / 256 ^ (31 - i) % 256)

/-- Byte-to-character mapping used by `generate_game_id`: reduce the byte
mod 32, map 0..25 to the letters `A`..`Z` (byte 65 + v) and 26..31 to the
digits `2`..`7` (byte 50 + (v - 26)). -/
def charOf (b : Nat) : Nat :=
  if b % 32 < 26 then 65 + b % 32 else 50 + (b % 32 - 26)

/-- `generate_game_id` from the source: hash the BCS bytes of the creator,
the counter and the current microsecond timestamp, map the first 4 hash
bytes through `charOf`, and append `counter % 100` as two decimal digit
characters. -/
def generate_game_id (h : HashFn) (counter creator now_us : Nat) : Bytes :=
  let combined := bcsAddress creator ++ bcsU64 counter ++ bcsU64 now_us
  let hash_bytes := h combined
  let id_bytes := (hash_bytes.take 4).map charOf
  let counter_suffix := counter % 100
  id_bytes ++ [48 + counter_suffix / 10, 48 + counter_suffix % 10]

/-- The view function `create_move_hash`: hash of
`vector::singleton(player_move) ++ nonce`. -/
def create_move_hash (h : HashFn) (player_move : Nat) (nonce : Bytes) : Bytes :=
  h (player_move :: nonce)

/-- The byte sequence hashed by `create_move_hash` before hashing. -/
def commit_data (player_move : Nat) (nonce : Bytes) : Bytes :=
  player_move :: nonce

/-- The byte sequence reconstructed inside `reveal_move` before hashing:
`bcs::to_bytes(&player_move) ++ nonce`. -/
def reveal_data (player_move : Nat) (nonce : Bytes) : Bytes :=
  bcsU8 player_move ++ nonce

/-- The outcome computation inlined in `reveal_move` (lines 410-421 of the
source): equal moves draw; `(ROCK, SCISSORS)`, `(PAPER, ROCK)` and
`(SCISSORS, PAPER)` are player-1 wins; anything else is a player-2 win. -/
def determine_outcome (move1 move2 : Nat) : Nat :=
  if move1 = move2 then RESULT_DRAW
  else if (move1 = ROCK ∧ move2 = SCISSORS) ∨
          (move1 = PAPER ∧ move2 = ROCK) ∨
          (move1 = SCISSORS ∧ move2 = PAPER) then RESULT_PLAYER1_WINS
  else RESULT_PLAYER2_WINS

/-- The explicit beats relation of the spec: Rock beats Scissors, Scissors
beats Paper, Paper beats Rock. -/
def beats (a b : Nat) : Prop :=
  (a = ROCK ∧ b = SCISSORS) ∨ (a = SCISSORS ∧ b = PAPER) ∨ (a = PAPER ∧ b = ROCK)

instance (a b : Nat) : Decidable (beats a b) := by
  unfold beats; infer_instance

/-- `init_registry`: install an empty registry if none is present. -/
def init_registry (w : World) : World :=
  match w.registry with
  | some _ => w
  | none => { w with registry := some { id_to_address := [], next_counter := 1, public_games := [] } }

/-- `create_game`: check the registry exists, the bet is positive and the
creator can fund it; allocate a fresh id from the counter; reject an id
collision; escrow the creator's deposit and install the new `Game` object
at `game_address`; register the id and emit `GameCreated`.
The environment-supplied inputs (timestamps and the fresh object address
produced by `object::create_object`) are explicit arguments. -/
def create_game (h : HashFn) (w : World)
    (creator_addr game_type bet_amount now_us now_s game_address : Nat) :
    Except Nat World :=
  match w.registry with
  | none => .error E_GAME_NOT_FOUND
  | some reg =>
    if bet_amount > 0 then
      if w.balances creator_addr ≥ bet_amount then
        let counter := reg.next_counter
        let game_id := generate_game_id h counter creator_addr now_us
        if (lookupA reg.id_to_address game_id).isSome then .error E_GAME_ID_EXISTS
        else
          let game : Game := {
            creator := creator_addr
            player1 := some creator_addr
            player2 := none
            phase := PHASE_WAITING
            player1_move_hash := none
            player2_move_hash := none
            player1_move := none
            player2_move := none
            result := RESULT_PENDING
            winner := none
            created_at := now_s
            game_type := game_type
            short_id := game_id
            bet_amount := bet_amount
            player1_deposit := bet_amount
            player2_deposit := 0
            prize_withdrawn := false }
          .ok { registry := some {
                  id_to_address := (game_id, game_address) :: reg.id_to_address
                  next_counter := counter + 1
                  public_games :=
                    if game_type = GAME_TYPE_PUBLIC then reg.public_games ++ [game_id]
                    else reg.public_games }
                games := (game_address, game) :: w.games
                balances := updateBal w.balances creator_addr
                  (w.balances creator_addr - bet_amount)
                events := w.events ++
                  [Event.GameCreated game_id game_address creator_addr game_type bet_amount] }
      else .error E_INSUFFICIENT_FUNDS
    else .error E_INVALID_BET_AMOUNT

/-- `join_game`: look the game up by id, require the waiting phase, an empty
second slot and a distinct, funded player; escrow the second deposit, set
`player2`, advance to the commit phase and emit `PlayerJoined`. -/
def join_game (w : World) (player_addr : Nat) (game_id : Bytes) : Except Nat World :=
  match w.registry with
  | none => .error E_GAME_NOT_FOUND
  | some reg =>
    match lookupA reg.id_to_address game_id with
    | none => .error E_GAME_NOT_FOUND
    | some game_address =>
      match lookupA w.games game_address with
      | none => .error E_GAME_NOT_FOUND
      | some game =>
        if game.phase = PHASE_WAITING then
          if game.player2 = none then
            match game.player1 with
            | none => .error EOPTION_NOT_SET
            | some p1 =>
              if p1 ≠ player_addr then
                if w.balances player_addr ≥ game.bet_amount then
                  let game' := { game with
                    player2_deposit := game.player2_deposit + game.bet_amount
                    player2 := some player_addr
                    phase := PHASE_COMMIT }
                  .ok { w with
                    games := updateA w.games game_address game'
                    balances := updateBal w.balances player_addr
                      (w.balances player_addr - game.bet_amount)
                    events := w.events ++
                      [Event.PlayerJoined game_id player_addr game.bet_amount] }
                else .error E_INSUFFICIENT_FUNDS
              else .error E_PLAYER_ALREADY_IN_GAME
          else .error E_GAME_FULL
        else .error E_WRONG_PHASE

/-- `commit_move`: in the commit phase, a participant stores a move hash in
their (still empty) slot; when both hashes are present the phase advances
to reveal; emits `MoveCommitted`. -/
def commit_move (w : World) (player_addr : Nat) (game_id : Bytes) (move_hash : Bytes) :
    Except Nat World :=
  match w.registry with
  | none => .error E_GAME_NOT_FOUND
  | some reg =>
    match lookupA reg.id_to_address game_id with
    | none => .error E_GAME_NOT_FOUND
    | some game_address =>
      match lookupA w.games game_address with
      | none => .error E_GAME_NOT_FOUND
      | some game =>
        if game.phase = PHASE_COMMIT then
          if game.player1 = some player_addr ∨ game.player2 = some player_addr then
            if game.player1 = some player_addr then
              if game.player1_move_hash = none then
                let game' := { game with player1_move_hash := some move_hash }
                let game'' :=
                  if game'.player1_move_hash.isSome ∧ game'.player2_move_hash.isSome
                  then { game' with phase := PHASE_REVEAL } else game'
                .ok { w with
                  games := updateA w.games game_address game''
                  events := w.events ++ [Event.MoveCommitted game_id player_addr] }
              else .error E_MOVE_ALREADY_COMMITTED
            else
              if game.player2_move_hash = none then
                let game' := { game with player2_move_hash := some move_hash }
                let game'' :=
                  if game'.player1_move_hash.isSome ∧ game'.player2_move_hash.isSome
                  then { game' with phase := PHASE_REVEAL } else game'
                .ok { w with
                  games := updateA w.games game_address game''
                  events := w.events ++ [Event.MoveCommitted game_id player_addr] }
              else .error E_MOVE_ALREADY_COMMITTED
          else .error E_NOT_PLAYER
        else .error E_WRONG_PHASE

/-- Shared tail of `reveal_move`: after one player's move has been stored,
emit `MoveRevealed`; if both moves are now present, compute the result and
winner, move to the finished phase and emit `GameFinished`. -/
def reveal_finish (w : World) (game_address : Nat) (game' : Game)
    (game_id : Bytes) (player_addr player_move : Nat) : World :=
  let evs := w.events ++ [Event.MoveRevealed game_id player_addr player_move]
  match game'.player1_move, game'.player2_move with
  | some move1, some move2 =>
    let result := determine_outcome move1 move2
    let winner :=
      if result = RESULT_PLAYER1_WINS then game'.player1
      else if result = RESULT_PLAYER2_WINS then game'.player2
      else game'.winner
    let game'' := { game' with phase := PHASE_FINISHED, result := result, winner := winner }
    let total_prize := game''.player1_deposit + game''.player2_deposit
    { w with
      games := updateA w.games game_address game''
      events := evs ++
        [Event.GameFinished game_id winner result move1 move2 total_prize] }
  | _, _ =>
    { w with games := updateA w.games game_address game', events := evs }

/-- `reveal_move`: in the reveal phase, with a valid move value, a
participant reveals `(move, nonce)`; the reconstructed bytes
`bcs(move) ++ nonce` must hash to the stored commitment, otherwise the call
aborts with `E_INVALID_MOVE_REVEAL`; on success the move is stored and the
game possibly finishes (see `reveal_finish`). -/
def reveal_move (h : HashFn) (w : World) (player_addr : Nat) (game_id : Bytes)
    (player_move : Nat) (nonce : Bytes) : Except Nat World :=
  match w.registry with
  | none => .error E_GAME_NOT_FOUND
  | some reg =>
    match lookupA reg.id_to_address game_id with
    | none => .error E_GAME_NOT_FOUND
    | some game_address =>
      match lookupA w.games game_address with
      | none => .error E_GAME_NOT_FOUND
      | some game =>
        if game.phase = PHASE_REVEAL then
          if player_move ≤ SCISSORS then
            if game.player1 = some player_addr ∨ game.player2 = some player_addr then
              let computed_hash := h (reveal_data player_move nonce)
              if game.player1 = some player_addr then
                match game.player1_move_hash with
                | none => .error E_MOVE_NOT_COMMITTED
                | some stored_hash =>
                  if computed_hash = stored_hash then
                    .ok (reveal_finish w game_address
                      { game with player1_move := some player_move }
                      game_id player_addr player_move)
                  else .error E_INVALID_MOVE_REVEAL
              else
                match game.player2_move_hash with
                | none => .error E_MOVE_NOT_COMMITTED
                | some stored_hash =>
                  if computed_hash = stored_hash then
                    .ok (reveal_finish w game_address
                      { game with player2_move := some player_move }
                      game_id player_addr player_move)
                  else .error E_INVALID_MOVE_REVEAL
            else .error E_NOT_PLAYER
          else .error E_INVALID_MOVE
        else .error E_WRONG_PHASE

/-- `withdraw_prize`: on a finished game whose prize is not yet withdrawn,
a draw refunds the caller's own deposit (player 1 checked first, matching
the short-circuit order of the source's `option::borrow` calls) without
setting any flag or emitting any event; a win pays both deposits to the
stored winner, sets `prize_withdrawn` and emits `PrizeWithdrawn`. -/
def withdraw_prize (w : World) (winner_addr : Nat) (game_id : Bytes) : Except Nat World :=
  match w.registry with
  | none => .error E_GAME_NOT_FOUND
  | some reg =>
    match lookupA reg.id_to_address game_id with
    | none => .error E_GAME_NOT_FOUND
    | some game_address =>
      match lookupA w.games game_address with
      | none => .error E_GAME_NOT_FOUND
      | some game =>
        if game.phase = PHASE_FINISHED then
          if game.prize_withdrawn then .error E_ALREADY_WITHDRAWN
          else
            let total_amount := game.player1_deposit + game.player2_deposit
            if game.result = RESULT_DRAW then
              match game.player1 with
              | none => .error EOPTION_NOT_SET
              | some p1 =>
                if winner_addr = p1 then
                  .ok { w with
                    games := updateA w.games game_address { game with player1_deposit := 0 }
                    balances := updateBal w.balances winner_addr
                      (w.balances winner_addr + game.player1_deposit) }
                else
                  match game.player2 with
                  | none => .error EOPTION_NOT_SET
                  | some p2 =>
                    if winner_addr = p2 then
                      .ok { w with
                        games := updateA w.games game_address { game with player2_deposit := 0 }
                        balances := updateBal w.balances winner_addr
                          (w.balances winner_addr + game.player2_deposit) }
                    else .error E_NOT_PLAYER
            else
              if game.winner = some winner_addr then
                .ok { w with
                  games := updateA w.games game_address
                    { game with player1_deposit := 0, player2_deposit := 0,
                                prize_withdrawn := true }
                  balances := updateBal w.balances winner_addr
                    (w.balances winner_addr + total_amount)
                  events := w.events ++
                    [Event.PrizeWithdrawn game_id winner_addr total_amount] }
              else .error E_NOT_PLAYER
        else .error E_GAME_NOT_FINISHED

/-- `cancel_game`: the creator of a still-waiting, unjoined game takes the
escrowed deposit back; the id is removed from the registry and from the
public listing; emits `GameCancelled` (the `Game` resource itself is not
deleted from storage). -/
def cancel_game (w : World) (creator_addr : Nat) (game_id : Bytes) : Except Nat World :=
  match w.registry with
  | none => .error E_GAME_NOT_FOUND
  | some reg =>
    match lookupA reg.id_to_address game_id with
    | none => .error E_GAME_NOT_FOUND
    | some game_address =>
      match lookupA w.games game_address with
      | none => .error E_GAME_NOT_FOUND
      | some game =>
        if game.creator = creator_addr then
          if game.phase = PHASE_WAITING then
            if game.player2 = none then
              .ok { registry := some { reg with
                      id_to_address := eraseA reg.id_to_address game_id
                      public_games :=
                        if game.game_type = GAME_TYPE_PUBLIC
                        then removeFirst reg.public_games game_id
                        else reg.public_games }
                    games := updateA w.games game_address { game with player1_deposit := 0 }
                    balances := updateBal w.balances creator_addr
                      (w.balances creator_addr + game.player1_deposit)
                    events := w.events ++
                      [Event.GameCancelled game_id creator_addr game.bet_amount] }
            else .error E_GAME_ALREADY_STARTED
          else .error E_GAME_ALREADY_STARTED
        else .error E_NOT_CREATOR

/-- The view function `get_game_moves`: returns the stored
`(player1_move, player2_move)` pair of the game. -/
def get_game_moves (w : World) (game_id : Bytes) : Except Nat (Option Nat × Option Nat) :=
  match w.registry with
  | none => .error E_GAME_NOT_FOUND
  | some reg =>
    match lookupA reg.id_to_address game_id with
    | none => .error E_GAME_NOT_FOUND
    | some game_address =>
      match lookupA w.games game_address with
      | none => .error E_GAME_NOT_FOUND
      | some game => .ok (game.player1_move, game.player2_move)

/-- Number of joined participants of a game (the spec's
`participants_joined`). -/
def joinedPlayers (g : Game) : Nat :=
  (if g.player1.isSome then 1 else 0) + (if g.player2.isSome then 1 else 0)

/-- One transition of the on-chain system: some entry function of the module
runs successfully.  Timestamps and the object address created for a new game
are environment-chosen; the execution runtime guarantees the object address
is fresh (`object::create_object` never returns an occupied address). -/
inductive Step (h : HashFn) : World → World → Prop
  | create {w w' : World} (creator_addr game_type bet_amount now_us now_s game_address : Nat)
      (hfresh : lookupA w.games game_address = none)
      (hok : create_game h w creator_addr game_type bet_amount now_us now_s game_address
              = .ok w') : Step h w w'
  | join {w w' : World} (player_addr : Nat) (game_id : Bytes)
      (hok : join_game w player_addr game_id = .ok w') : Step h w w'
  | commit {w w' : World} (player_addr : Nat) (game_id move_hash : Bytes)
      (hok : commit_move w player_addr game_id move_hash = .ok w') : Step h w w'
  | reveal {w w' : World} (player_addr : Nat) (game_id : Bytes) (player_move : Nat)
      (nonce : Bytes)
      (hok : reveal_move h w player_addr game_id player_move nonce = .ok w') : Step h w w'
  | withdraw {w w' : World} (winner_addr : Nat) (game_id : Bytes)
      (hok : withdraw_prize w winner_addr game_id = .ok w') : Step h w w'
  | cancel {w w' : World} (creator_addr : Nat) (game_id : Bytes)
      (hok : cancel_game w creator_addr game_id = .ok w') : Step h w w'

/-- The state right after `init_registry` on a fresh deployment: an empty
registry with counter 1, no games, arbitrary account balances, no events. -/
def initWorld (bal : Nat → Nat) : World :=
  { registry := some { id_to_address := [], next_counter := 1, public_games := [] }
    games := []
    balances := bal
    events := [] }

/-- States reachable from a freshly initialized deployment by successful
entry-function calls. -/
inductive Reachable (h : HashFn) : World → Prop
  | init (bal : Nat → Nat) : Reachable h (initWorld bal)
  | step {w w' : World} : Reachable h w → Step h w w' → Reachable h w'

/-- A game is registered in a world when the registry maps an id to its
object address and a `Game` resource lives there. -/
def Registered (w : World) (game_id : Bytes) (game_address : Nat) (g : Game) : Prop :=
  ∃ reg, w.registry = some reg ∧
    lookupA reg.id_to_address game_id = some game_address ∧
    lookupA w.games game_address = some g

/-- Per-game invariant maintained by every reachable registered game:
the creator occupies slot one; slot two is filled exactly from the commit
phase on; and the escrowed deposits follow the phase/result discipline
(full stake per joined player until settlement; on a win, both stakes until
`prize_withdrawn`, then zero; on a draw, each deposit is independently
either still the stake or already refunded to zero). -/
def GInv (g : Game) : Prop :=
  g.player1 = some g.creator ∧
  (g.player2.isSome ↔ (g.phase = PHASE_COMMIT ∨ g.phase = PHASE_REVEAL ∨
    g.phase = PHASE_FINISHED)) ∧
  (g.phase = PHASE_WAITING ∨ g.phase = PHASE_COMMIT ∨ g.phase = PHASE_REVEAL ∨
    g.phase = PHASE_FINISHED) ∧
  (g.phase = PHASE_WAITING →
    g.player1_deposit = g.bet_amount ∧ g.player2_deposit = 0 ∧
    g.prize_withdrawn = false ∧ g.result = RESULT_PENDING) ∧
  ((g.phase = PHASE_COMMIT ∨ g.phase = PHASE_REVEAL) →
    g.player1_deposit = g.bet_amount ∧ g.player2_deposit = g.bet_amount ∧
    g.prize_withdrawn = false ∧ g.result = RESULT_PENDING) ∧
  (g.phase = PHASE_FINISHED →
    (g.result = RESULT_PLAYER1_WINS ∨ g.result = RESULT_PLAYER2_WINS ∨
      g.result = RESULT_DRAW)) ∧
  (g.phase = PHASE_FINISHED → g.result ≠ RESULT_DRAW → g.prize_withdrawn = false →
    g.player1_deposit = g.bet_amount ∧ g.player2_deposit = g.bet_amount) ∧
  (g.phase = PHASE_FINISHED → g.result = RESULT_DRAW →
    g.prize_withdrawn = false ∧
    (g.player1_deposit = 0 ∨ g.player1_deposit = g.bet_amount) ∧
    (g.player2_deposit = 0 ∨ g.player2_deposit = g.bet_amount)) ∧
  (g.prize_withdrawn = true → g.player1_deposit = 0 ∧ g.player2_deposit = 0)

/-- World invariant: the registry exists, every registered id leads to a
`Game` resource satisfying `GInv`, and distinct ids map to distinct object
addresses. -/
def WorldInv (w : World) : Prop :=
  ∃ reg, w.registry = some reg ∧
    (∀ game_id game_address, lookupA reg.id_to_address game_id = some game_address →
      ∃ g, lookupA w.games game_address = some g ∧ GInv g) ∧
    (∀ id1 id2 game_address, lookupA reg.id_to_address id1 = some game_address →
      lookupA reg.id_to_address id2 = some game_address → id1 = id2)

/-- A concrete stand-in hash function: constant 32-byte output. -/
def hConst : HashFn := fun _ => [0, 1, 2, 3] ++ List.replicate 28 0

/-- A second concrete stand-in hash function: the identity on byte lists
(injective, so distinct commitment data produce distinct hashes). -/
def hId : HashFn := fun b => b

/-- Concrete initial balances: accounts 100 and 200 hold 1000 each. -/
def bal0 : Nat → Nat := fun a => if a = 100 then 1000 else if a = 200 then 1000 else 0

/-- Concrete genesis world. -/
def w0 : World := initWorld bal0

/-- The id generated for the first game created by account 100 at time 0. -/
def gid (h : HashFn) : Bytes := generate_game_id h 1 100 0

/-- Concrete run, creation: account 100 creates a public game with stake 50;
the object lives at address 7. -/
def trA (h : HashFn) : Except Nat World := create_game h w0 100 GAME_TYPE_PUBLIC 50 0 0 7

/-- Concrete run: account 200 joins. -/
def trB (h : HashFn) : Except Nat World := (trA h).bind (fun w => join_game w 200 (gid h))

/-- Concrete run: player 100 commits to Rock with nonce `[9]`. -/
def trC (h : HashFn) : Except Nat World :=
  (trB h).bind (fun w => commit_move w 100 (gid h) (create_move_hash h ROCK [9]))

/-- Concrete run: player 200 also commits to Rock with nonce `[9]`;
the game enters the reveal phase. -/
def trD (h : HashFn) : Except Nat World :=
  (trC h).bind (fun w => commit_move w 200 (gid h) (create_move_hash h ROCK [9]))

/-- Concrete run: player 100 reveals. -/
def trE (h : HashFn) : Except Nat World :=
  (trD h).bind (fun w => reveal_move h w 100 (gid h) ROCK [9])

/-- Concrete run: player 200 reveals; the game finishes in a draw. -/
def trF (h : HashFn) : Except Nat World :=
  (trE h).bind (fun w => reveal_move h w 200 (gid h) ROCK [9])

/-- Concrete run: player 100 withdraws after the draw. -/
def trG (h : HashFn) : Except Nat World :=
  (trF h).bind (fun w => withdraw_prize w 100 (gid h))

/-- Concrete run: player 100 withdraws a second time after the draw. -/
def trH (h : HashFn) : Except Nat World :=
  (trG h).bind (fun w => withdraw_prize w 100 (gid h))

/-- Concrete win run: after `trC`, player 200 commits to Scissors. -/
def trDw (h : HashFn) : Except Nat World :=
  (trC h).bind (fun w => commit_move w 200 (gid h) (create_move_hash h SCISSORS [9]))

/-- Concrete win run: player 100 reveals Rock. -/
def trEw (h : HashFn) : Except Nat World :=
  (trDw h).bind (fun w => reveal_move h w 100 (gid h) ROCK [9])

/-- Concrete win run: player 200 reveals Scissors; player 100 wins. -/
def trFw (h : HashFn) : Except Nat World :=
  (trEw h).bind (fun w => reveal_move h w 200 (gid h) SCISSORS [9])

/-- Concrete win run: the winner 100 withdraws the whole prize. -/
def trGw (h : HashFn) : Except Nat World :=
  (trFw h).bind (fun w => withdraw_prize w 100 (gid h))

/-- Concrete win run: the winner tries to withdraw a second time. -/
def trHw (h : HashFn) : Except Nat World :=
  (trGw h).bind (fun w => withdraw_prize w 100 (gid h))

/-- Extract the committed world of a successful run (defaulting to the
genesis world; only ever used on runs proved successful). -/
def getOk (e : Except Nat World) : World :=
  match e with
  | .ok w => w
  | .error _ => w0

/-- Escrow sum of the game at address 7, as observed through a run. -/
def escrowAt7 (e : Except Nat World) : Except Nat (Option Nat) :=
  e.map (fun w => (lookupA w.games 7).map (fun g => g.player1_deposit + g.player2_deposit))

/-- The balances of accounts 100 and 200 together with the escrow deposits
of the game at address 7, as observed through a run. -/
def ledgerView (e : Except Nat World) : Except Nat (Nat × Nat × Option (Nat × Nat)) :=
  e.map (fun w => (w.balances 100, w.balances 200,
    (lookupA w.games 7).map (fun g => (g.player1_deposit, g.player2_deposit))))

/-- Number of events emitted so far, as observed through a run. -/
def eventCount (e : Except Nat World) : Except Nat Nat :=
  e.map (fun w => w.events.length)

/-- The abort code of a failed run, if any. -/
def errOf (e : Except Nat World) : Option Nat :=
  match e with
  | .error c => some c
  | .ok _ => none

/-- The committed world after `trA hConst`. -/
def wAv : World := getOk (trA hConst)

/-- The committed world after `trB hConst`. -/
def wBv : World := getOk (trB hConst)

/-- The committed world after `trC hConst`. -/
def wCv : World := getOk (trC hConst)

/-- The committed world after `trD hConst`. -/
def wDv : World := getOk (trD hConst)

/-- The committed world after `trE hConst`. -/
def wEv : World := getOk (trE hConst)

/-- The committed world after `trF hConst`. -/
def wFv : World := getOk (trF hConst)

/-- The committed world after `trG hConst`. -/
def wGv : World := getOk (trG hConst)

/-- The committed world after `trA hId`. -/
def wAid : World := getOk (trA hId)

/-- The committed world after `trB hId`. -/
def wBid : World := getOk (trB hId)

/-- The committed world after `trC hId`. -/
def wCid : World := getOk (trC hId)

/-- The committed world after `trD hId`. -/
def wDid : World := getOk (trD hId)

/-- The game stored at object address 7 of a world. -/
def gameAt7 (w : World) : Game := (lookupA w.games 7).getD default

/-- The 32-symbol identifier alphabet claimed by the spec, as byte values:
the letters `A`-`Z` minus the easily-confused `I` and `O`, plus the digits
`2`-`9`.  Modelled from the spec: this is the spec's claimed alphabet, for
comparison against the one the code actually uses. -/
def specAlphabet : List Nat :=
  [65, 66, 67, 68, 69, 70, 71, 72, 74, 75, 76, 77, 78, 80, 81, 82, 83, 84,
   85, 86, 87, 88, 89, 90, 50, 51, 52, 53, 54, 55, 56, 57]

/-- Looking a key up after updating it yields the new value when the key was
bound. -/
theorem lookupA_updateA_self {α β : Type} [DecidableEq α] (l : List (α × β)) (k : α) (v : β) :
    lookupA (updateA l k v) k = (lookupA l k).map (fun _ => v) := by
  induction l with
  | nil => rfl
  | cons p rest ih =>
    by_cases hp : p.1 = k
    · simp [updateA, lookupA, hp]
    · simp [updateA, lookupA, hp, ih]

/-- Looking up a different key is unaffected by an update. -/
theorem lookupA_updateA_ne {α β : Type} [DecidableEq α] (l : List (α × β)) (k k' : α) (v : β)
    (hne : k' ≠ k) : lookupA (updateA l k v) k' = lookupA l k' := by
  induction l with
  | nil => rfl
  | cons p rest ih =>
    by_cases hp : p.1 = k
    · simp [updateA, lookupA, hp, hne, Ne.symm hne, ih]
    · by_cases hp' : p.1 = k'
      · simp [updateA, lookupA, hp, hp', hne]
      · simp [updateA, lookupA, hp, hp', hne, ih]

/-- Lookup after erasing a key: the erased key is gone, others unaffected. -/
theorem lookupA_eraseA {α β : Type} [DecidableEq α] (l : List (α × β)) (k k' : α) :
    lookupA (eraseA l k) k' = if k' = k then none else lookupA l k' := by
  induction l with
  | nil => simp [eraseA, lookupA]
  | cons p rest ih =>
    by_cases hp : p.1 = k
    · by_cases hk : k' = k
      · subst hk; simp [eraseA, lookupA, hp, ih]
      · have hk2 : ¬ k = k' := fun hcc => hk hcc.symm
        simp [eraseA, lookupA, hp, hk, hk2, ih]
    · by_cases hp' : p.1 = k'
      · have hk : ¬ k' = k := by rw [← hp']; exact hp
        simp [eraseA, lookupA, hp, hp', hk]
      · simp [eraseA, lookupA, hp, hp', ih]

/-- Lookup at the key just prepended. -/
theorem lookupA_cons_self {α β : Type} [DecidableEq α] (k : α) (v : β) (l : List (α × β)) :
    lookupA ((k, v) :: l) k = some v := by
  simp [lookupA]

/-- Lookup at a different key skips the prepended binding. -/
theorem lookupA_cons_ne {α β : Type} [DecidableEq α] (k k' : α) (v : β) (l : List (α × β))
    (hne : k ≠ k') : lookupA ((k, v) :: l) k' = lookupA l k' := by
  simp [lookupA, hne]

/-- The world invariant holds at a freshly initialized deployment. -/
theorem worldInv_init (bal : Nat → Nat) : WorldInv (initWorld bal) := by
  refine ⟨_, rfl, ?_, ?_⟩
  · intro id addr hlook
    simp [lookupA] at hlook
  · intro id1 id2 addr hl1 hl2
    simp [lookupA] at hl1

/-- Extending an invariant-satisfying world with a fresh registered game
preserves the world invariant, for any counter, listing, balances and
events. -/
theorem worldInv_extend {w : World} {reg : GameRegistry}
    (hgames : ∀ game_id game_address,
      lookupA reg.id_to_address game_id = some game_address →
      ∃ g, lookupA w.games game_address = some g ∧ GInv g)
    (hinj : ∀ id1 id2 game_address,
      lookupA reg.id_to_address id1 = some game_address →
      lookupA reg.id_to_address id2 = some game_address → id1 = id2)
    (gidNew : Bytes) (ga : Nat) (gNew : Game)
    (hfresh : lookupA w.games ga = none) (hG : GInv gNew)
    (nc : Nat) (pg : List Bytes) (bal : Nat → Nat) (evs : List Event) :
    WorldInv { registry := some { id_to_address := (gidNew, ga) :: reg.id_to_address,
                                  next_counter := nc, public_games := pg }
               games := (ga, gNew) :: w.games
               balances := bal
               events := evs } := by
  refine ⟨_, rfl, ?_, ?_⟩
  · intro id addr hlook
    simp only [lookupA] at hlook
    split at hlook
    · cases hlook
      exact ⟨_, lookupA_cons_self _ _ _, hG⟩
    · obtain ⟨g, hlookg, hGg⟩ := hgames id addr hlook
      refine ⟨g, ?_, hGg⟩
      have hne : ga ≠ addr := by
        intro hcc
        rw [hcc] at hfresh
        rw [hfresh] at hlookg
        cases hlookg
      rw [lookupA_cons_ne _ _ _ _ hne]
      exact hlookg
  · intro id1 id2 addr hl1 hl2
    simp only [lookupA] at hl1 hl2
    split at hl1
    · rename_i h1
      cases hl1
      split at hl2
      · rename_i h2
        rw [← h1, ← h2]
      · exfalso
        obtain ⟨g, hlookg, _⟩ := hgames id2 ga hl2
        rw [hfresh] at hlookg
        cases hlookg
    · split at hl2
      · rename_i h2
        cases hl2
        exfalso
        obtain ⟨g, hlookg, _⟩ := hgames id1 ga hl1
        rw [hfresh] at hlookg
        cases hlookg
      · exact hinj id1 id2 addr hl1 hl2

/-- The `Game` freshly built by `create_game` satisfies the per-game
invariant. -/
theorem gInv_new (c gt b ts : Nat) (gid0 : Bytes) :
    GInv { creator := c, player1 := some c, player2 := none, phase := PHASE_WAITING,
           player1_move_hash := none, player2_move_hash := none, player1_move := none,
           player2_move := none, result := RESULT_PENDING, winner := none,
           created_at := ts, game_type := gt, short_id := gid0, bet_amount := b,
           player1_deposit := b, player2_deposit := 0, prize_withdrawn := false } := by
  simp [GInv, PHASE_WAITING, PHASE_COMMIT, PHASE_REVEAL, PHASE_FINISHED,
    RESULT_PENDING, RESULT_DRAW, RESULT_PLAYER1_WINS, RESULT_PLAYER2_WINS]

/-- `create_game` preserves the world invariant (given the freshness of the
created object address, which `object::create_object` guarantees). -/
theorem worldInv_create (h : HashFn) {w w' : World} (c gt b tu ts ga : Nat)
    (hinv : WorldInv w) (hfresh : lookupA w.games ga = none)
    (hok : create_game h w c gt b tu ts ga = .ok w') : WorldInv w' := by
  obtain ⟨reg, hr, hgames, hinj⟩ := hinv
  simp only [create_game, hr] at hok
  repeat' split at hok
  all_goals cases hok
  all_goals exact worldInv_extend hgames hinj _ _ _ hfresh (gInv_new _ _ _ _ _) _ _ _ _

/-- Updating the game at an address with another invariant-satisfying game
preserves the world invariant, for any balances and events. -/
theorem worldInv_updateGame {w w' : World} {reg : GameRegistry}
    (hgames : ∀ game_id game_address,
      lookupA reg.id_to_address game_id = some game_address →
      ∃ g, lookupA w.games game_address = some g ∧ GInv g)
    (hinj : ∀ id1 id2 game_address,
      lookupA reg.id_to_address id1 = some game_address →
      lookupA reg.id_to_address id2 = some game_address → id1 = id2)
    (ga : Nat) (gNew : Game) (hG : GInv gNew)
    (hr' : w'.registry = some reg) (hg' : w'.games = updateA w.games ga gNew) :
    WorldInv w' := by
  refine ⟨reg, hr', ?_, hinj⟩
  intro id addr hlook
  obtain ⟨g, hlookg, hGg⟩ := hgames id addr hlook
  rw [hg']
  by_cases haddr : addr = ga
  · subst haddr
    refine ⟨gNew, ?_, hG⟩
    rw [lookupA_updateA_self, hlookg]
    rfl
  · refine ⟨g, ?_, hGg⟩
    rw [lookupA_updateA_ne _ _ _ _ haddr]
    exact hlookg

/-- GInv only depends on the fields other than the commitments and moves:
replacing those four fields preserves it. -/
theorem gInv_set_moves (og : Game) (hG : GInv og) (a b : Option Bytes) (c d : Option Nat) :
    GInv { og with player1_move_hash := a, player2_move_hash := b,
                   player1_move := c, player2_move := d } := hG

/-- Advancing a commit-phase game to the reveal phase (with any stored
commitments) preserves the per-game invariant. -/
theorem gInv_commit_adv (og : Game) (hG : GInv og) (hphase : og.phase = PHASE_COMMIT)
    (a b : Option Bytes) :
    GInv { og with player1_move_hash := a, player2_move_hash := b,
                   phase := PHASE_REVEAL } := by
  obtain ⟨hpl1, hiff, hphases, hph0, hph12, hfin3, hfinwin, hfindraw, hwd⟩ := hG
  have h12 := hph12 (Or.inl hphase)
  have hp2some : og.player2.isSome = true := hiff.mpr (Or.inl hphase)
  simp [GInv, PHASE_WAITING, PHASE_COMMIT, PHASE_REVEAL, PHASE_FINISHED,
    RESULT_PENDING, RESULT_DRAW, RESULT_PLAYER1_WINS, RESULT_PLAYER2_WINS,
    hpl1, hp2some, h12.1, h12.2.1, h12.2.2.1, h12.2.2.2]

/-- The outcome computation only yields the three finished result codes. -/
theorem determine_outcome_mem (a b : Nat) :
    determine_outcome a b = RESULT_PLAYER1_WINS ∨
    determine_outcome a b = RESULT_PLAYER2_WINS ∨
    determine_outcome a b = RESULT_DRAW := by
  unfold determine_outcome
  split
  · exact Or.inr (Or.inr rfl)
  · split
    · exact Or.inl rfl
    · exact Or.inr (Or.inl rfl)

/-- Finishing a reveal-phase game with any of the three result codes and
any winner preserves the per-game invariant. -/
theorem gInv_finish_any (g' : Game) (hG : GInv g') (hphase : g'.phase = PHASE_REVEAL)
    (res : Nat)
    (hres : res = RESULT_PLAYER1_WINS ∨ res = RESULT_PLAYER2_WINS ∨ res = RESULT_DRAW)
    (wn : Option Nat) :
    GInv { g' with phase := PHASE_FINISHED, result := res, winner := wn } := by
  obtain ⟨hpl1, hiff, hphases, hph0, hph12, hfin3, hfinwin, hfindraw, hwd⟩ := hG
  have h12 := hph12 (Or.inr hphase)
  have hp2some : g'.player2.isSome = true := hiff.mpr (Or.inr (Or.inl hphase))
  rcases hres with hres | hres | hres
  all_goals subst hres
  all_goals simp [GInv, PHASE_WAITING, PHASE_COMMIT, PHASE_REVEAL, PHASE_FINISHED,
    RESULT_PENDING, RESULT_DRAW, RESULT_PLAYER1_WINS, RESULT_PLAYER2_WINS,
    hpl1, hp2some, h12.1, h12.2.1, h12.2.2.1, h12.2.2.2]

/-- The world produced by the `reveal_finish` tail of `reveal_move`
satisfies the world invariant whenever the stored game does and is in the
reveal phase. -/
theorem worldInv_reveal_finish {w : World} {reg : GameRegistry}
    (hr : w.registry = some reg)
    (hgames : ∀ game_id game_address,
      lookupA reg.id_to_address game_id = some game_address →
      ∃ g, lookupA w.games game_address = some g ∧ GInv g)
    (hinj : ∀ id1 id2 game_address,
      lookupA reg.id_to_address id1 = some game_address →
      lookupA reg.id_to_address id2 = some game_address → id1 = id2)
    (ga : Nat) (g' : Game) (id0 : Bytes) (p m : Nat)
    (hG : GInv g') (hphase : g'.phase = PHASE_REVEAL) :
    WorldInv (reveal_finish w ga g' id0 p m) := by
  unfold reveal_finish
  split
  · exact worldInv_updateGame hgames hinj ga _
      (gInv_finish_any g' hG hphase _ (determine_outcome_mem _ _) _) hr rfl
  · exact worldInv_updateGame hgames hinj ga _ hG hr rfl

/-- `join_game` preserves the world invariant. -/
theorem worldInv_join {w w' : World} (p : Nat) (id : Bytes)
    (hinv : WorldInv w) (hok : join_game w p id = .ok w') : WorldInv w' := by
  obtain ⟨reg, hr, hgames, hinj⟩ := hinv
  simp only [join_game, hr] at hok
  repeat' split at hok
  all_goals cases hok
  rename_i x1 ga heqid x2 og heqg hphase hp2 x3 p1 heqp1 hnep hbal
  obtain ⟨g0, hg0, hG0⟩ := hgames id ga heqid
  rw [heqg] at hg0
  cases hg0
  obtain ⟨hpl1, hiff, hphases, hph0, hph12, hfin3, hfinwin, hfindraw, hwd⟩ := hG0
  have h0 := hph0 hphase
  refine worldInv_updateGame hgames hinj _ _ ?_ rfl rfl
  simp [GInv, PHASE_WAITING, PHASE_COMMIT, PHASE_REVEAL, PHASE_FINISHED,
    RESULT_PENDING, RESULT_DRAW, RESULT_PLAYER1_WINS, RESULT_PLAYER2_WINS,
    hpl1, h0.1, h0.2.1, h0.2.2.1, h0.2.2.2]

/-- `commit_move` preserves the world invariant. -/
theorem worldInv_commit {w w' : World} (p : Nat) (id mh : Bytes)
    (hinv : WorldInv w) (hok : commit_move w p id mh = .ok w') : WorldInv w' := by
  obtain ⟨reg, hr, hgames, hinj⟩ := hinv
  simp only [commit_move, hr] at hok
  repeat' split at hok
  all_goals cases hok
  all_goals rename_i x1 ga heqid x2 og heqg hphase hpart hp1 hslot hboth
  all_goals obtain ⟨g0, hg0, hG0⟩ := hgames id ga heqid
  all_goals rw [heqg] at hg0
  all_goals cases hg0
  all_goals refine worldInv_updateGame hgames hinj ga _ ?_ rfl rfl
  all_goals first
    | exact gInv_commit_adv _ hG0 hphase _ _
    | exact gInv_set_moves _ hG0 _ _ _ _

/-- `reveal_move` preserves the world invariant. -/
theorem worldInv_reveal (h : HashFn) {w w' : World} (p m : Nat) (id n : Bytes)
    (hinv : WorldInv w) (hok : reveal_move h w p id m n = .ok w') : WorldInv w' := by
  obtain ⟨reg, hr, hgames, hinj⟩ := hinv
  simp only [reveal_move, hr] at hok
  repeat' split at hok
  all_goals cases hok
  all_goals rename_i x1 ga heqid x2 og heqg hphase hmove hpart hp1 x3 stored heqstored hmatch
  all_goals obtain ⟨g0, hg0, hG0⟩ := hgames id ga heqid
  all_goals rw [heqg] at hg0
  all_goals cases hg0
  all_goals refine worldInv_reveal_finish hr hgames hinj ga _ id p m ?_ ?_
  all_goals first
    | exact gInv_set_moves _ hG0 _ _ _ _
    | exact hphase

/-- `withdraw_prize` preserves the world invariant. -/
theorem worldInv_withdraw {w w' : World} (p : Nat) (id : Bytes)
    (hinv : WorldInv w) (hok : withdraw_prize w p id = .ok w') : WorldInv w' := by
  obtain ⟨reg, hr, hgames, hinj⟩ := hinv
  simp only [withdraw_prize, hr] at hok
  repeat' split at hok
  all_goals cases hok
  · rename_i x1 ga heqid x2 og heqg hphase hwdn hres x3 p1 heqp1 hpp1
    obtain ⟨g0, hg0, hG0⟩ := hgames id ga heqid
    rw [heqg] at hg0
    cases hg0
    obtain ⟨hpl1, hiff, hphases, hph0, hph12, hfin3, hfinwin, hfindraw, hwd⟩ := hG0
    obtain ⟨hwdf, hd1, hd2⟩ := hfindraw hphase hres
    have hp2some : og.player2.isSome = true := hiff.mpr (Or.inr (Or.inr hphase))
    refine worldInv_updateGame hgames hinj ga _ ?_ rfl rfl
    simp [GInv, PHASE_WAITING, PHASE_COMMIT, PHASE_REVEAL, PHASE_FINISHED,
      RESULT_PENDING, RESULT_DRAW, RESULT_PLAYER1_WINS, RESULT_PLAYER2_WINS,
      hpl1, hp2some, hphase, hres, hwdf, hd1, hd2]
  · rename_i x1 ga heqid x2 og heqg hphase hwdn hres x3 p1 heqp1 hpp1 x4 p2 heqp2 hpp2
    obtain ⟨g0, hg0, hG0⟩ := hgames id ga heqid
    rw [heqg] at hg0
    cases hg0
    obtain ⟨hpl1, hiff, hphases, hph0, hph12, hfin3, hfinwin, hfindraw, hwd⟩ := hG0
    obtain ⟨hwdf, hd1, hd2⟩ := hfindraw hphase hres
    have hp2some : og.player2.isSome = true := hiff.mpr (Or.inr (Or.inr hphase))
    refine worldInv_updateGame hgames hinj ga _ ?_ rfl rfl
    simp [GInv, PHASE_WAITING, PHASE_COMMIT, PHASE_REVEAL, PHASE_FINISHED,
      RESULT_PENDING, RESULT_DRAW, RESULT_PLAYER1_WINS, RESULT_PLAYER2_WINS,
      hpl1, hp2some, hphase, hres, hwdf, hd1, hd2]
  · rename_i x1 ga heqid x2 og heqg hphase hwdn hres hwin
    obtain ⟨g0, hg0, hG0⟩ := hgames id ga heqid
    rw [heqg] at hg0
    cases hg0
    obtain ⟨hpl1, hiff, hphases, hph0, hph12, hfin3, hfinwin, hfindraw, hwd⟩ := hG0
    have hfin := hfin3 hphase
    have hp2some : og.player2.isSome = true := hiff.mpr (Or.inr (Or.inr hphase))
    simp only [RESULT_PLAYER1_WINS, RESULT_PLAYER2_WINS, RESULT_DRAW] at hfin hres
    refine worldInv_updateGame hgames hinj ga _ ?_ rfl rfl
    simp [GInv, PHASE_WAITING, PHASE_COMMIT, PHASE_REVEAL, PHASE_FINISHED,
      RESULT_PENDING, RESULT_DRAW, RESULT_PLAYER1_WINS, RESULT_PLAYER2_WINS,
      hpl1, hp2some, hphase, hres, hfin]
    rcases hfin with hx | hx | hx
    · exact Or.inl hx
    · exact Or.inr hx
    · exact absurd hx hres

/-- `cancel_game` preserves the world invariant. -/
theorem worldInv_cancel {w w' : World} (p : Nat) (id : Bytes)
    (hinv : WorldInv w) (hok : cancel_game w p id = .ok w') : WorldInv w' := by
  obtain ⟨reg, hr, hgames, hinj⟩ := hinv
  simp only [cancel_game, hr] at hok
  repeat' split at hok
  all_goals cases hok
  all_goals rename_i xa ga heqid xb og heqg hcr hphase hp2 hpub
  all_goals refine ⟨_, rfl, ?_, ?_⟩
  all_goals first
    | (intro id' addr hlook
       rw [lookupA_eraseA] at hlook
       split at hlook
       · cases hlook
       · rename_i hneid
         obtain ⟨g, hlookg, hGg⟩ := hgames id' addr hlook
         have hne2 : addr ≠ ga := by
           intro hcc
           rw [hcc] at hlook
           exact hneid (hinj id' id ga hlook heqid)
         refine ⟨g, ?_, hGg⟩
         rw [lookupA_updateA_ne _ _ _ _ hne2]
         exact hlookg)
    | (intro id1 id2 addr hl1 hl2
       rw [lookupA_eraseA] at hl1 hl2
       split at hl1
       · cases hl1
       · split at hl2
         · cases hl2
         · exact hinj id1 id2 addr hl1 hl2)

/-- C3: for all pairs of valid moves, the outcome computation is exactly the
explicit relation Rock beats Scissors, Scissors beats Paper, Paper beats
Rock (player 1 wins iff move 1 beats move 2, player 2 wins iff move 2 beats
move 1), it is anti-symmetric (if move 1 beats move 2 then the swapped pair
yields the opposite winner), and it yields Draw exactly when the moves are
equal. -/
theorem determine_outcome_correct (m1 m2 : Nat) (h1 : m1 ≤ 2) (h2 : m2 ≤ 2) :
    (determine_outcome m1 m2 = RESULT_PLAYER1_WINS ↔ beats m1 m2) ∧
    (determine_outcome m1 m2 = RESULT_PLAYER2_WINS ↔ beats m2 m1) ∧
    (determine_outcome m1 m2 = RESULT_DRAW ↔ m1 = m2) ∧
    (determine_outcome m1 m2 = RESULT_PLAYER1_WINS →
      determine_outcome m2 m1 = RESULT_PLAYER2_WINS) := by
  interval_cases m1 <;> interval_cases m2 <;> decide

/-- Witness for `determine_outcome_correct` at the concrete pair
(Rock, Scissors). -/
theorem determine_outcome_correct_witness :
    ROCK ≤ 2 ∧ SCISSORS ≤ 2 ∧
    ((determine_outcome ROCK SCISSORS = RESULT_PLAYER1_WINS ↔ beats ROCK SCISSORS) ∧
     (determine_outcome ROCK SCISSORS = RESULT_PLAYER2_WINS ↔ beats SCISSORS ROCK) ∧
     (determine_outcome ROCK SCISSORS = RESULT_DRAW ↔ ROCK = SCISSORS) ∧
     (determine_outcome ROCK SCISSORS = RESULT_PLAYER1_WINS →
       determine_outcome SCISSORS ROCK = RESULT_PLAYER2_WINS)) :=
  ⟨by decide, by decide,
    determine_outcome_correct ROCK SCISSORS (by decide) (by decide)⟩

/-- C9: the generated identifier does not stay inside the documented
32-symbol alphabet.  With hash bytes 8, 14, 31, 26 and counter 1 the id is
`IO7201`, containing the easily-confused `I` (73) and `O` (79); the decimal
counter suffix always contributes `0` (48) and `1` (49) for counter 1; and
no hash byte can ever map to the digits `8` (56) or `9` (57), contradicting
the claimed `A-Z minus confusable glyphs plus 2-9` alphabet (which the
code's own comments also promise). -/
theorem generate_game_id_alphabet_violation :
    generate_game_id (fun _ => [8, 14, 31, 26] ++ List.replicate 28 0) 1 0 0
      = [73, 79, 55, 50, 48, 49] ∧
    73 ∉ specAlphabet ∧ 79 ∉ specAlphabet ∧ 48 ∉ specAlphabet ∧ 49 ∉ specAlphabet ∧
    (∀ b : Nat, charOf b ≠ 56 ∧ charOf b ≠ 57) ∧
    (∀ (h : HashFn) (c t : Nat), ∃ pre, generate_game_id h 1 c t = pre ++ [48, 49]) := by
  refine ⟨by decide, by decide, by decide, by decide, by decide, ?_, ?_⟩
  · intro b
    unfold charOf
    have hb : b % 32 < 32 := Nat.mod_lt b (by omega)
    split <;> omega
  · intro h c t
    exact ⟨((h (bcsAddress c ++ bcsU64 1 ++ bcsU64 t)).take 4).map charOf, rfl⟩

/-- C4: the commitment round-trip.  The byte sequence reconstructed by
`reveal_move` (`bcs(move) ++ nonce`) coincides with the one hashed by
`create_move_hash` (`[move] ++ nonce`) on the `u8` domain; hence in the
reveal phase a participant who committed `create_move_hash(m, n)` passes
verification when revealing `(m, n)`, while any reveal whose reconstructed
bytes hash differently from the stored commitment aborts with the single
error `E_INVALID_MOVE_REVEAL` (the spec's `CommitmentMismatch`). -/
theorem commit_reveal_roundtrip (h : HashFn) (w : World) (game_id : Bytes)
    (game_address : Nat) (g : Game) (p m : Nat) (n : Bytes)
    (hreg : Registered w game_id game_address g)
    (hphase : g.phase = PHASE_REVEAL)
    (hm : m ≤ 2)
    (hslot : (g.player1 = some p ∧ g.player1_move_hash = some (create_move_hash h m n)) ∨
             (g.player1 ≠ some p ∧ g.player2 = some p ∧
               g.player2_move_hash = some (create_move_hash h m n))) :
    (∀ (mm : Nat) (nn : Bytes), mm < 256 → reveal_data mm nn = commit_data mm nn) ∧
    (reveal_move h w p game_id m n).isOk = true ∧
    (∀ (m' : Nat) (n' : Bytes), m' ≤ 2 →
      h (reveal_data m' n') ≠ create_move_hash h m n →
      reveal_move h w p game_id m' n' = .error E_INVALID_MOVE_REVEAL) := by
  obtain ⟨reg, hr, hid, hg⟩ := hreg
  have hdata : ∀ (mm : Nat) (nn : Bytes), mm < 256 → reveal_data mm nn = commit_data mm nn := by
    intro mm nn hmm
    unfold reveal_data commit_data bcsU8
    rw [Nat.mod_eq_of_lt hmm]
    rfl
  have hhash : h (reveal_data m n) = create_move_hash h m n := by
    rw [hdata m n (by omega)]; rfl
  refine ⟨hdata, ?_, ?_⟩
  · simp only [reveal_move, hr, hid, hg, hphase, SCISSORS, PHASE_REVEAL]
    rcases hslot with ⟨hp1, hstored⟩ | ⟨hnp1, hp2, hstored⟩
    · simp [hp1, hstored, hhash, hm, Except.isOk, Except.toBool]
    · simp [hnp1, hp2, hstored, hhash, hm, Except.isOk, Except.toBool]
  · intro m' n' hm' hne
    simp only [reveal_move, hr, hid, hg, hphase, SCISSORS, PHASE_REVEAL]
    rcases hslot with ⟨hp1, hstored⟩ | ⟨hnp1, hp2, hstored⟩
    · simp [hp1, hstored, hne, hm']
    · simp [hnp1, hp2, hstored, hne, hm']

/-- Witness for `commit_reveal_roundtrip`: with the injective stand-in hash
`hId`, in the concrete reveal-phase world `wDid` where player 100 committed
to Rock with nonce `[9]`, revealing `(Rock, [9])` succeeds while revealing
`(Paper, [9])` aborts with `E_INVALID_MOVE_REVEAL`. -/
theorem commit_reveal_roundtrip_witness :
    (reveal_move hId wDid 100 (gid hId) 0 [9]).isOk = true ∧
    reveal_move hId wDid 100 (gid hId) 1 [9] = .error E_INVALID_MOVE_REVEAL := by
  have hreg : Registered wDid (gid hId) 7 (gameAt7 wDid) := ⟨_, rfl, by decide, by decide⟩
  have h := commit_reveal_roundtrip hId wDid (gid hId) 7 (gameAt7 wDid) 100 0 [9]
    hreg (by decide) (by decide) (Or.inl ⟨by decide, by decide⟩)
  exact ⟨h.2.1, h.2.2 1 [9] (by decide) (by decide)⟩

/-- C1 counterexample: in the concrete draw run `trG hConst` (stake 50,
both reveal Rock, player 100 then withdraws successfully), the withdraw
call succeeds yet the escrow still holds 50 for the match, not 0: on a draw
a successful withdraw only empties the caller's own deposit. -/
theorem escrow_after_draw_withdraw_not_zero :
    (trG hConst).isOk = true ∧
    escrowAt7 (trG hConst) = .ok (some 50) ∧
    escrowAt7 (trG hConst) ≠ .ok (some 0) := by
  refine ⟨by decide, by decide, by decide⟩

/-- C2 evaluation at the failing input: on a finished draw the first
withdraw by player 100 refunds the 50-stake (balances 1000/950, escrow
(0, 50)), and a second withdraw by the same player succeeds instead of
aborting with `E_ALREADY_WITHDRAWN`, transferring nothing: the draw branch
never sets `prize_withdrawn`. -/
theorem draw_second_withdraw_succeeds :
    ledgerView (trG hConst) = .ok (1000, 950, some (0, 50)) ∧
    ledgerView (trH hConst) = .ok (1000, 950, some (0, 50)) ∧
    (trH hConst).isOk = true ∧
    errOf (trH hConst) = none ∧
    errOf (trHw hConst) = some E_ALREADY_WITHDRAWN := by
  refine ⟨by decide, by decide, by decide, by decide, by decide⟩

/-- C5 counterexample: the reveal that completes the match emits two events
(`MoveRevealed` and `GameFinished`: 5 events before, 7 after), not exactly
one; and the successful draw withdraw emits none (still 7). -/
theorem event_count_counterexample :
    eventCount (trE hConst) = .ok 5 ∧
    eventCount (trF hConst) = .ok 7 ∧
    eventCount (trG hConst) = .ok 7 ∧
    (trG hConst).isOk = true := by
  refine ⟨by decide, by decide, by decide, by decide⟩

/-- C5 amended: the per-call event discipline the code actually follows.
`create_game`, `join_game`, `commit_move` and `cancel_game` emit exactly
one event per successful call; a successful `reveal_move` emits one event,
or two when it completes the match; a successful `withdraw_prize` emits one
event on a win and none on a draw.  (A failing call is an abort and leaves
the world, hence the event stream, untouched.) -/
theorem event_discipline :
    (∀ h w c gt b tu ts ga w', create_game h w c gt b tu ts ga = .ok w' →
      w'.events.length = w.events.length + 1) ∧
    (∀ w p id w', join_game w p id = .ok w' →
      w'.events.length = w.events.length + 1) ∧
    (∀ w p id mh w', commit_move w p id mh = .ok w' →
      w'.events.length = w.events.length + 1) ∧
    (∀ w p id w', cancel_game w p id = .ok w' →
      w'.events.length = w.events.length + 1) ∧
    (∀ h w p id m n w', reveal_move h w p id m n = .ok w' →
      w'.events.length = w.events.length + 1 ∨
      w'.events.length = w.events.length + 2) ∧
    (∀ w p id w' gaddr g, Registered w id gaddr g → withdraw_prize w p id = .ok w' →
      (g.result = RESULT_DRAW → w'.events = w.events) ∧
      (g.result ≠ RESULT_DRAW → w'.events.length = w.events.length + 1)) := by
  refine ⟨?_, ?_, ?_, ?_, ?_, ?_⟩
  · intro h w c gt b tu ts ga w' hok
    simp only [create_game] at hok
    repeat' split at hok
    all_goals first | (cases hok; simp) | (cases hok)
  · intro w p id w' hok
    simp only [join_game] at hok
    repeat' split at hok
    all_goals first | (cases hok; simp) | (cases hok)
  · intro w p id mh w' hok
    simp only [commit_move] at hok
    repeat' split at hok
    all_goals first | (cases hok; simp) | (cases hok)
  · intro w p id w' hok
    simp only [cancel_game] at hok
    repeat' split at hok
    all_goals first | (cases hok; simp) | (cases hok)
  · intro h w p id m n w' hok
    simp only [reveal_move] at hok
    repeat' split at hok
    all_goals try (cases hok)
    all_goals simp only [reveal_finish]
    all_goals repeat' split
    all_goals simp
  · intro w p id w' gaddr g hreg hok
    obtain ⟨reg, hr, hid, hg⟩ := hreg
    simp only [withdraw_prize, hr, hid, hg] at hok
    repeat' split at hok
    all_goals first
      | (cases hok; constructor <;> intro hres <;> simp_all)
      | (cases hok)

/-- C6 counterexample: in the concrete run `trE hConst` only player 100 has
revealed (fewer than two moves revealed), yet the `get_game_moves` query
already returns that player's move value: `(some Rock, none)`. -/
theorem partial_reveal_exposed :
    (trE hConst).bind (fun w => get_game_moves w (gid hConst)) = .ok (some ROCK, none) := by
  decide

/-- C6 amended: the query exposes each stored move as soon as that
participant has revealed.  If player one reveals `(m, n)` successfully
while player two has not yet revealed, `get_game_moves` on the new world
returns `(some m, none)` - a move value despite fewer than two reveals. -/
theorem get_game_moves_after_single_reveal (h : HashFn) (w : World) (game_id : Bytes)
    (game_address : Nat) (g : Game) (p m : Nat) (n : Bytes) (w' : World)
    (hreg : Registered w game_id game_address g)
    (hp1 : g.player1 = some p)
    (hnotrev2 : g.player2_move = none)
    (hok : reveal_move h w p game_id m n = .ok w') :
    get_game_moves w' game_id = .ok (some m, none) := by
  obtain ⟨reg, hr, hid, hg⟩ := hreg
  simp only [reveal_move, hr, hid, hg] at hok
  repeat' split at hok
  all_goals cases hok
  all_goals simp_all [reveal_finish, get_game_moves, lookupA_updateA_self]

/-- C7 counterexample: after a successful join, a second join attempt on the
same match fails with `E_WRONG_PHASE` (6), not with the `E_GAME_FULL` (3)
error kind the claim names: the phase check precedes the fullness check and
joining already advanced the phase. -/
theorem second_join_not_already_full :
    errOf ((trB hConst).bind (fun w => join_game w 300 (gid hConst))) = some E_WRONG_PHASE ∧
    E_WRONG_PHASE ≠ E_GAME_FULL := by
  refine ⟨by decide, by decide⟩

/-- C8 counterexample: with the match in the commit phase, committing the
commitment hash of the out-of-domain move value 5 succeeds; `commit_move`
receives only a hash and cannot fail with `E_INVALID_MOVE`. -/
theorem commit_out_of_domain_succeeds :
    SCISSORS < 5 ∧
    ((trB hConst).bind (fun w => commit_move w 100 (gid hConst)
      (create_move_hash hConst 5 [9]))).isOk = true := by
  refine ⟨by decide, by decide⟩

/-- C8 amended: the move-domain check lives in `reveal_move`, not
`commit_move`.  `commit_move` never aborts with `E_INVALID_MOVE` (it stores
an opaque hash), while `reveal_move` on a registered reveal-phase match
rejects any move value outside the three-element domain with
`E_INVALID_MOVE` - an abort, so the match (in particular its phase) is left
unchanged. -/
theorem invalid_move_rejected_at_reveal :
    (∀ w p id mh, commit_move w p id mh ≠ .error E_INVALID_MOVE) ∧
    (∀ (h : HashFn) w p id m n game_address g, Registered w id game_address g →
      g.phase = PHASE_REVEAL → SCISSORS < m →
      reveal_move h w p id m n = .error E_INVALID_MOVE) := by
  constructor
  · intro w p id mh
    unfold commit_move
    repeat' split
    all_goals simp [E_GAME_NOT_FOUND, E_INVALID_MOVE, E_WRONG_PHASE,
      E_NOT_PLAYER, E_MOVE_ALREADY_COMMITTED]
  · intro h w p id m n game_address g hreg hphase hm
    obtain ⟨reg, hr, hid, hg⟩ := hreg
    unfold reveal_move
    rw [hr]
    simp only [hid, hg, hphase, PHASE_REVEAL]
    have : ¬ (m ≤ SCISSORS) := by omega
    simp [this]

/-- Witness for `invalid_move_rejected_at_reveal`: in the concrete
reveal-phase world `wDv`, revealing the out-of-domain move 5 aborts with
`E_INVALID_MOVE`. -/
theorem invalid_move_rejected_at_reveal_witness :
    reveal_move hConst wDv 100 (gid hConst) 5 [9] = .error E_INVALID_MOVE :=
  invalid_move_rejected_at_reveal.2 hConst wDv 100 (gid hConst) 5 [9] 7 (gameAt7 wDv)
    ⟨_, rfl, by decide, by decide⟩ (by decide) (by decide)

/-- Witness for `get_game_moves_after_single_reveal` at the concrete run:
player 100 reveals Rock in `wDv`, player 200 has not revealed, and the
query on the resulting world returns `(some Rock, none)`. -/
theorem get_game_moves_after_single_reveal_witness :
    get_game_moves wEv (gid hConst) = .ok (some ROCK, none) :=
  get_game_moves_after_single_reveal hConst wDv (gid hConst) 7 (gameAt7 wDv) 100 ROCK [9]
    wEv ⟨_, rfl, by decide, by decide⟩ (by decide) (by decide) rfl

/-- Witness for `event_discipline` at concrete calls: the successful join
into `wAv` appended exactly one event, and the successful draw withdraw
from `wFv` appended none. -/
theorem event_discipline_witness :
    wBv.events.length = wAv.events.length + 1 ∧ wGv.events = wFv.events := by
  constructor
  · exact event_discipline.2.1 wAv 200 (gid hConst) wBv rfl
  · exact (event_discipline.2.2.2.2.2 wFv 100 (gid hConst) wGv 7 (gameAt7 wFv)
      ⟨_, rfl, by decide, by decide⟩ rfl).1 (by decide)

/-- Every reachable world satisfies the world invariant. -/
theorem reachable_worldInv (h : HashFn) {w : World} (hw : Reachable h w) : WorldInv w := by
  induction hw with
  | init bal => exact worldInv_init bal
  | step hr hs ih =>
    cases hs with
    | create c gt b tu ts ga hfresh hok =>
      exact worldInv_create h c gt b tu ts ga ih hfresh hok
    | join p id hok => exact worldInv_join p id ih hok
    | commit p id mh hok => exact worldInv_commit p id mh ih hok
    | reveal p id m n hok => exact worldInv_reveal h p m id n ih hok
    | withdraw p id hok => exact worldInv_withdraw p id ih hok
    | cancel p id hok => exact worldInv_cancel p id ih hok

/-- The concrete world `wAv` is reachable. -/
theorem reachable_wAv : Reachable hConst wAv :=
  (Reachable.init bal0).step (Step.create 100 GAME_TYPE_PUBLIC 50 0 0 7 rfl rfl)

/-- The concrete world `wBv` is reachable. -/
theorem reachable_wBv : Reachable hConst wBv :=
  reachable_wAv.step (Step.join 200 (gid hConst) rfl)

/-- The concrete world `wCv` is reachable. -/
theorem reachable_wCv : Reachable hConst wCv :=
  reachable_wBv.step (Step.commit 100 (gid hConst) (create_move_hash hConst ROCK [9]) rfl)

/-- The concrete world `wDv` is reachable. -/
theorem reachable_wDv : Reachable hConst wDv :=
  reachable_wCv.step (Step.commit 200 (gid hConst) (create_move_hash hConst ROCK [9]) rfl)

/-- The concrete world `wEv` is reachable. -/
theorem reachable_wEv : Reachable hConst wEv :=
  reachable_wDv.step (Step.reveal 100 (gid hConst) ROCK [9] rfl)

/-- The concrete world `wFv` is reachable. -/
theorem reachable_wFv : Reachable hConst wFv :=
  reachable_wEv.step (Step.reveal 200 (gid hConst) ROCK [9] rfl)

/-- The concrete world `wGv` is reachable. -/
theorem reachable_wGv : Reachable hConst wGv :=
  reachable_wFv.step (Step.withdraw 100 (gid hConst) rfl)

/-- C1 (amended): escrow conservation for every registered match of a
reachable world.  Before the finished phase the two escrowed deposits sum
to the stake times the number of joined players; a finished win holds both
stakes until `prize_withdrawn` is set, and once it is set (the successful
win withdraw) the escrow sum is 0; on a finished draw each deposit is
independently either the full stake (not yet refunded) or 0 (that
participant already withdrew), so the sum reaches 0 only after both
participants withdraw. -/
theorem escrow_conservation (h : HashFn) (w : World) (hw : Reachable h w)
    (game_id : Bytes) (game_address : Nat) (g : Game)
    (hreg : Registered w game_id game_address g) :
    (g.phase ≠ PHASE_FINISHED →
      g.player1_deposit + g.player2_deposit = g.bet_amount * joinedPlayers g) ∧
    (g.phase = PHASE_FINISHED → g.result ≠ RESULT_DRAW → g.prize_withdrawn = false →
      g.player1_deposit + g.player2_deposit = g.bet_amount * 2) ∧
    (g.prize_withdrawn = true → g.player1_deposit + g.player2_deposit = 0) ∧
    (g.phase = PHASE_FINISHED → g.result = RESULT_DRAW →
      (g.player1_deposit = 0 ∨ g.player1_deposit = g.bet_amount) ∧
      (g.player2_deposit = 0 ∨ g.player2_deposit = g.bet_amount)) := by
  obtain ⟨reg, hr, hid, hg⟩ := hreg
  obtain ⟨reg', hr', hgames, hinj⟩ := reachable_worldInv h hw
  rw [hr] at hr'
  cases hr'
  obtain ⟨g0, hg0, hG0⟩ := hgames game_id game_address hid
  rw [hg] at hg0
  cases hg0
  obtain ⟨hpl1, hiff, hphases, hph0, hph12, hfin3, hfinwin, hfindraw, hwd⟩ := hG0
  have hp1some : g.player1.isSome = true := by rw [hpl1]; rfl
  refine ⟨?_, ?_, ?_, ?_⟩
  · intro hnf
    rcases hphases with h0 | h1 | h2 | h3
    · obtain ⟨hd1, hd2, _, _⟩ := hph0 h0
      have hp2none : g.player2.isSome = false := by
        rcases hb : g.player2.isSome with hfalse | htrue
        · rfl
        · exfalso
          rcases hiff.mp hb with hc | hc | hc <;> rw [h0] at hc <;>
            simp [PHASE_WAITING, PHASE_COMMIT, PHASE_REVEAL, PHASE_FINISHED] at hc
      simp [joinedPlayers, hp1some, hp2none, hd1, hd2]
    · obtain ⟨hd1, hd2, _, _⟩ := hph12 (Or.inl h1)
      have hp2some : g.player2.isSome = true := hiff.mpr (Or.inl h1)
      simp [joinedPlayers, hp1some, hp2some, hd1, hd2]
      ring
    · obtain ⟨hd1, hd2, _, _⟩ := hph12 (Or.inr h2)
      have hp2some : g.player2.isSome = true := hiff.mpr (Or.inr (Or.inl h2))
      simp [joinedPlayers, hp1some, hp2some, hd1, hd2]
      ring
    · exact absurd h3 hnf
  · intro h3 hres hwdf
    obtain ⟨hd1, hd2⟩ := hfinwin h3 hres hwdf
    rw [hd1, hd2]
    ring
  · intro hwtrue
    obtain ⟨hd1, hd2⟩ := hwd hwtrue
    rw [hd1, hd2]
  · intro h3 hres
    exact ⟨(hfindraw h3 hres).2.1, (hfindraw h3 hres).2.2⟩

/-- Witness for `escrow_conservation` at the reachable worlds `wBv` (joined,
commit phase: escrow 50 + 50 = 50 × 2) and `wGv` (finished draw after one
withdraw: deposits are 0 and 50, each either 0 or the stake). -/
theorem escrow_conservation_witness :
    (gameAt7 wBv).player1_deposit + (gameAt7 wBv).player2_deposit =
      (gameAt7 wBv).bet_amount * joinedPlayers (gameAt7 wBv) ∧
    ((gameAt7 wGv).player1_deposit = 0 ∨
      (gameAt7 wGv).player1_deposit = (gameAt7 wGv).bet_amount) ∧
    ((gameAt7 wGv).player2_deposit = 0 ∨
      (gameAt7 wGv).player2_deposit = (gameAt7 wGv).bet_amount) := by
  refine ⟨?_, ?_⟩
  · exact (escrow_conservation hConst wBv reachable_wBv (gid hConst) 7 (gameAt7 wBv)
      ⟨_, rfl, by decide, by decide⟩).1 (by decide)
  · exact (escrow_conservation hConst wGv reachable_wGv (gid hConst) 7 (gameAt7 wGv)
      ⟨_, rfl, by decide, by decide⟩).2.2.2 (by decide) (by decide)

/-- C7 (amended): once a match has been joined (its second slot is filled),
any further `join_game` call on it fails with `E_WRONG_PHASE`: joining
advanced the phase out of `Waiting`, and the phase check precedes the
fullness check, so `E_GAME_FULL` is unreachable for it. -/
theorem join_after_join_wrong_phase (h : HashFn) (w : World) (hw : Reachable h w)
    (game_id : Bytes) (game_address : Nat) (g : Game)
    (hreg : Registered w game_id game_address g)
    (hjoined : g.player2.isSome = true) (p : Nat) :
    join_game w p game_id = .error E_WRONG_PHASE := by
  obtain ⟨reg, hr, hid, hg⟩ := hreg
  obtain ⟨reg', hr', hgames, hinj⟩ := reachable_worldInv h hw
  rw [hr] at hr'
  cases hr'
  obtain ⟨g0, hg0, hG0⟩ := hgames game_id game_address hid
  rw [hg] at hg0
  cases hg0
  obtain ⟨hpl1, hiff, hphases, hph0, hph12, hfin3, hfinwin, hfindraw, hwd⟩ := hG0
  have hnw : ¬ g.phase = PHASE_WAITING := by
    intro h0
    rcases hiff.mp hjoined with hc | hc | hc <;> rw [h0] at hc <;>
      simp [PHASE_WAITING, PHASE_COMMIT, PHASE_REVEAL, PHASE_FINISHED] at hc
  simp only [join_game, hr, hid, hg]
  rw [if_neg hnw]

/-- Witness for `join_after_join_wrong_phase`: at the joined concrete world
`wBv`, a join attempt by account 300 fails with `E_WRONG_PHASE`. -/
theorem join_after_join_wrong_phase_witness :
    join_game wBv 300 (gid hConst) = .error E_WRONG_PHASE :=
  join_after_join_wrong_phase hConst wBv reachable_wBv (gid hConst) 7 (gameAt7 wBv)
    ⟨_, rfl, by decide, by decide⟩ (by decide) 300

/-- C10: participant presence.  In every registered match of a reachable
world, slot one holds the creator; in the commit, reveal and finished
phases slot two is also filled; consequently on a finished match the
unguarded `option::borrow` reads in the draw branch of `withdraw_prize`
can never abort: no caller can make it fail with the option-library abort
code `EOPTION_NOT_SET`. -/
theorem participant_presence (h : HashFn) (w : World) (hw : Reachable h w)
    (game_id : Bytes) (game_address : Nat) (g : Game)
    (hreg : Registered w game_id game_address g) :
    g.player1 = some g.creator ∧
    ((g.phase = PHASE_COMMIT ∨ g.phase = PHASE_REVEAL ∨ g.phase = PHASE_FINISHED) →
      g.player2.isSome = true) ∧
    (g.phase = PHASE_FINISHED → ∀ caller,
      withdraw_prize w caller game_id ≠ .error EOPTION_NOT_SET) := by
  obtain ⟨reg, hr, hid, hg⟩ := hreg
  obtain ⟨reg', hr', hgames, hinj⟩ := reachable_worldInv h hw
  rw [hr] at hr'
  cases hr'
  obtain ⟨g0, hg0, hG0⟩ := hgames game_id game_address hid
  rw [hg] at hg0
  cases hg0
  obtain ⟨hpl1, hiff, hphases, hph0, hph12, hfin3, hfinwin, hfindraw, hwd⟩ := hG0
  refine ⟨hpl1, fun hph => hiff.mpr hph, ?_⟩
  intro h3 caller
  obtain ⟨p2, hp2⟩ := Option.isSome_iff_exists.mp (hiff.mpr (Or.inr (Or.inr h3)))
  simp only [withdraw_prize, hr, hid, hg, hpl1, hp2]
  repeat' split
  all_goals simp [E_ALREADY_WITHDRAWN, E_NOT_PLAYER, E_GAME_NOT_FINISHED, EOPTION_NOT_SET]

/-- Witness for `participant_presence` at the reachable finished world
`wFv`: no withdraw call by account 100 can abort with the option-library
code. -/
theorem participant_presence_witness :
    withdraw_prize wFv 100 (gid hConst) ≠ .error EOPTION_NOT_SET :=
  (participant_presence hConst wFv reachable_wFv (gid hConst) 7 (gameAt7 wFv)
    ⟨_, rfl, by decide, by decide⟩).2.2 (by decide) 100

end RPS
